import Mathlib

/-!
Verification of `matminer/featurizers/function.py` (`FunctionFeaturizer`).

The source builds, at construction time, a table of sympy expressions
(`exp_dict`) keyed by depth via `generate_expressions_combinations`, and at
call time iterates (`_exp_iter`) over depths, argument combinations and table
expressions, substituting arguments and post-processing each result, catching
`TypeError`/`ValueError` per output.

Sympy is modelled by a small expression AST (`Expr`) whose structural
equality stands for sympy's structural equality of automatically canonicalised
expressions; multiplication performed by the default combo function `np.prod`
is modelled by `npProd`, which flattens and sorts factors the way sympy's
commutative `Mul` canonicalises argument order.  Rational exponents are kept
as explicit numerator/denominator fields, integer constants as `intC`.
-/

/-- Model of a sympy expression as produced by `parse_expr` and by the
combination machinery.  `pow b num den` models `Pow(b, Rational(num, den))`
with `den = 1` for integer exponents; `var n` models `Symbol("xn")`, with the
canonical pre-renaming variable `x` identified with `var 0` (renaming
`x -> x0` is then the identity, matching the fact that sympy's
`subs({"x": "x0"})` leaves the depth-0 slot's symbol equal to
`parse_expr("x0")`). -/
inductive Expr where
  | intC (z : ℤ)
  | var (n : ℕ)
  | add (a b : Expr)
  | mul (a b : Expr)
  | pow (b : Expr) (num : ℤ) (den : ℕ)
  | log (a : Expr)
  | exp (a : Expr)
deriving DecidableEq, Repr

/-- Constructor tag, used for the syntactic total order on `Expr`. -/
def Expr.rank : Expr → ℕ
  | .intC _ => 0
  | .var _ => 1
  | .add _ _ => 2
  | .mul _ _ => 3
  | .pow _ _ _ => 4
  | .log _ => 5
  | .exp _ => 6

/-- Syntactic comparison on `Expr`, modelling the deterministic sort key sympy
uses to order the arguments of a commutative `Mul`.  Only determinism matters
for the model: sympy's concrete key order is an implementation detail, and
the spec leaves the resulting list order unspecified. -/
def Expr.cmp : Expr → Expr → Ordering
  | .intC p, .intC q => compare p q
  | .var m, .var n => compare m n
  | .add a b, .add c d => (Expr.cmp a c).then (Expr.cmp b d)
  | .mul a b, .mul c d => (Expr.cmp a c).then (Expr.cmp b d)
  | .pow a p q, .pow b r s => (Expr.cmp a b).then ((compare p r).then (compare q s))
  | .log a, .log b => Expr.cmp a b
  | .exp a, .exp b => Expr.cmp a b
  | a, b => compare a.rank b.rank

/-- Factor list of a product, modelling sympy `Mul` flattening. -/
def collectFactors : Expr → List Expr
  | .mul a b => collectFactors a ++ collectFactors b
  | e => [e]

/-- Model of `np.prod` applied to a tuple of sympy expressions (the default
`combo_function`): the 1-element product is returned unchanged, and a longer
product multiplies via sympy `Mul`, which flattens nested products and sorts
the factors into canonical order.  (Sympy additionally merges equal-base
powers and numeric coefficients; no call in this development multiplies two
factors sharing a base, so that step is not modelled.) -/
def npProd (l : List Expr) : Expr :=
  match l with
  | [] => .intC 1
  | [e] => e
  | _ =>
    match (l.flatMap collectFactors).insertionSort (fun a b => Expr.cmp a b ≠ Ordering.gt) with
    | [] => .intC 1
    | f :: rest => rest.foldl Expr.mul f

/-- Model of `expr.subs({"x": "xn"})`: rename the canonical variable
(`var 0`) to slot variable `xn`. -/
def Expr.rename (n : ℕ) : Expr → Expr
  | .intC z => .intC z
  | .var 0 => .var n
  | .var (m+1) => .var (m+1)
  | .add a b => .add (a.rename n) (b.rename n)
  | .mul a b => .mul (a.rename n) (b.rename n)
  | .pow a p q => .pow (a.rename n) p q
  | .log a => .log (a.rename n)
  | .exp a => .exp (a.rename n)

/-- Model of sympy `parse_expr` on the string literals used in this
development (the default expression list plus the literals exercised by the
tests below); other strings are treated as unparseable.  Each right-hand side
is the canonical sympy AST of the string: `1/x` is `Pow(x, -1)`, `sqrt(x)` is
`Pow(x, 1/2)`, `exp(-x)` is `exp(Mul(-1, x))`, `x*(x+1)` is
`Mul(x, Add(1, x))`, and so on. -/
def parse_expr : String → Option Expr
  | "x" => some (.var 0)
  | "x0" => some (.var 0)
  | "1/x" => some (.pow (.var 0) (-1) 1)
  | "sqrt(x)" => some (.pow (.var 0) 1 2)
  | "1/sqrt(x)" => some (.pow (.var 0) (-1) 2)
  | "x**2" => some (.pow (.var 0) 2 1)
  | "x**-2" => some (.pow (.var 0) (-2) 1)
  | "x**3" => some (.pow (.var 0) 3 1)
  | "x**-3" => some (.pow (.var 0) (-3) 1)
  | "log(x)" => some (.log (.var 0))
  | "1/log(x)" => some (.pow (.log (.var 0)) (-1) 1)
  | "exp(x)" => some (.exp (.var 0))
  | "exp(-x)" => some (.exp (.mul (.intC (-1)) (.var 0)))
  | "x*(x+1)" => some (.mul (.var 0) (.add (.intC 1) (.var 0)))
  | "x + x**2" => some (.add (.var 0) (.pow (.var 0) 2 1))
  | _ => none

/-- The default expression list of the module (`default_exps`). -/
def default_exps : List String :=
  ["x", "1/x", "sqrt(x)", "1/sqrt(x)", "x**2", "x**-2", "x**3",
   "x**-3", "log(x)", "1/log(x)", "exp(x)", "exp(-x)"]

/-- Model of the Python exception classes that can cross the component's
boundaries. -/
inductive PyErr where
  | typeError
  | valueError
  | zeroDivisionError
  | overflowError
  | keyError
  | sympifyError
  | otherError
deriving DecidableEq, Repr

deriving instance DecidableEq for Except

/-- Cartesian product of a list of candidate pools, in the order
`itertools.product` enumerates it. -/
def prodLists : List (List α) → List (List α)
  | [] => [[]]
  | p :: ps => p.flatMap fun x => (prodLists ps).map (x :: ·)

/-- All ways to insert an element into a list (helper for `perms`). -/
def insertEverywhere (x : α) : List α → List (List α)
  | [] => [[x]]
  | y :: ys => (x :: y :: ys) :: (insertEverywhere x ys).map (y :: ·)

/-- All permutations of a list, with multiplicity, modelling
`itertools.permutations` (the enumeration order differs from itertools's,
which only affects the unspecified order of the deduplicated result). -/
def perms : List α → List (List α)
  | [] => [[]]
  | x :: xs => (perms xs).flatMap (insertEverywhere x)

/-- The multiset of combined candidate expressions built by
`generate_expressions_combinations` before deduplication: one pool of
variable-renamed base expressions per slot, the cartesian product over the
pools, and every permutation of each pick fed to the combo function. -/
def comboCandidates (exp_array : List Expr) (combo_depth : ℕ)
    (combo_function : List Expr → Expr) : List Expr :=
  let all_arrays := (List.range combo_depth).map fun n => exp_array.map (Expr.rename n)
  (prodLists all_arrays).flatMap fun exp_set => (perms exp_set).map combo_function

/-- Model of `generate_expressions_combinations`.  Parsing a base expression
fails with the parser's error (fatal, surfaced as `.error`).  The final line
models `list(set(combo_exps) - set([parse_expr('x0')]))` — deduplication by
sympy structural equality followed by removal of the bare `x0` — as a
first-class list operation (`dedup` then `filter`); the set's iteration order
is unspecified in Python, so the model fixes one deterministic order.
Note: in the source file this final line (line 213) contains a stray token
`t` (`set([parse_expr('x0')]t )`), a Python syntax error; the dedup-and-remove
step is modelled from the function's docstring (`list of unique non-trivial
expressions`) and the surrounding comment (`Filter for unique combinations,
also remove identity`). -/
def generate_expressions_combinations (expressions : List String)
    (combo_depth : ℕ) (combo_function : List Expr → Expr) :
    Except PyErr (List Expr) :=
  match expressions.mapM parse_expr with
  | none => .error .sympifyError
  | some exp_array =>
    let combo_exps := comboCandidates exp_array combo_depth combo_function
    .ok (combo_exps.dedup.filter (fun e => e ≠ Expr.var 0))

/-- Model of Python `range(1, multi_feature_depth + 1)` with a (possibly
non-positive) `int` bound. -/
def depthList (d : ℤ) : List ℕ :=
  (List.range d.toNat).map (· + 1)

/-- The featurizer state after `__init__`: the configuration and the
combination table `exp_dict` (an ordered association list keyed by depth).
The stored `combo_function` field of the source object is omitted from the
state: it is only read during construction, never afterwards. -/
structure FunctionFeaturizer where
  expressions : List String
  multi_feature_depth : ℤ
  exp_dict : List (ℕ × List Expr)
deriving DecidableEq, Repr

/-- Model of `FunctionFeaturizer.__init__`: build `exp_dict` for each depth in
`range(1, multi_feature_depth + 1)`.  The only failure source is an exception
escaping `generate_expressions_combinations`; the constructor itself performs
no validation of `multi_feature_depth`. -/
def FunctionFeaturizer.init (expressions : List String)
    (multi_feature_depth : ℤ) (combo_function : List Expr → Expr) :
    Except PyErr FunctionFeaturizer :=
  match (depthList multi_feature_depth).mapM
      (fun n => (generate_expressions_combinations expressions n
        combo_function).map (fun l => (n, l))) with
  | .error e => .error e
  | .ok table => .ok ⟨expressions, multi_feature_depth, table⟩

/-- Lookup in `exp_dict` (`self.exp_dict[n]`); the default `[]` is never hit
on the keys the iterator uses, because construction populates exactly the
keys `1 .. multi_feature_depth`. -/
def FunctionFeaturizer.dict (F : FunctionFeaturizer) (n : ℕ) : List Expr :=
  (List.lookup n F.exp_dict).getD []

/-- `itertools.combinations(l, n)`: all selections of `n` elements of `l` at
strictly increasing positions, in lexicographic position order. -/
def comb : List α → ℕ → List (List α)
  | _, 0 => [[]]
  | [], _ + 1 => []
  | x :: xs, n + 1 => ((comb xs n).map (x :: ·)) ++ comb xs (n + 1)

/-- The sequence of (expression, selected-arguments) pairs `_exp_iter` walks,
in iteration order: depth `n` ascending over `range(1, multi_feature_depth
+ 1)`, then `itertools.combinations(args, n)`, then the depth-`n` table list. -/
def subsPairs (F : FunctionFeaturizer) (args : List α) : List (Expr × List α) :=
  (depthList F.multi_feature_depth).flatMap fun n =>
    (comb args n).flatMap fun arg_combo =>
      (F.dict n).map fun e => (e, arg_combo)

/-- Is the exception caught by `_exp_iter`'s
`except (TypeError, ValueError)` clause? -/
def isCaught : PyErr → Bool
  | .typeError => true
  | .valueError => true
  | _ => false

/-- Run the body of `_exp_iter` over the pending items: each successful body
yields its value, a caught exception yields the `None` sentinel, and any
other exception aborts the whole iteration (Python discards the partial list
and propagates the exception). -/
def runIter (body : σ → Except PyErr β) : List σ → Except PyErr (List (Option β))
  | [] => .ok []
  | t :: ts =>
    match body t with
    | .ok v => (runIter body ts).map ((some v) :: ·)
    | .error e =>
      if isCaught e then (runIter body ts).map ((none) :: ·)
      else .error e

/-- Model of `_exp_iter` (already materialised to a list, as both callers do):
`body e arg_combo` stands for `postprocess(e.subs(subs_dict))`, the whole try
block, covering both the substitution and the postprocessing call. -/
def exp_iter (F : FunctionFeaturizer) (body : Expr → List α → Except PyErr β)
    (args : List α) : Except PyErr (List (Option β)) :=
  runIter (fun p => body p.1 p.2) (subsPairs F args)

/-- Model of `featurize` with an arbitrary postprocess body (the source
exposes `postprocess` as a parameter defaulting to `float`). -/
def featurize (F : FunctionFeaturizer) (body : Expr → List α → Except PyErr β)
    (args : List α) : Except PyErr (List (Option β)) :=
  exp_iter F body args

/-- Model of `feature_labels` with an arbitrary rendering body (`str` or
`sympy.latex` composed with substitution of the column-name symbols). -/
def feature_labels (F : FunctionFeaturizer)
    (render : Expr → List γ → Except PyErr δ) (col_id : List γ) :
    Except PyErr (List (Option δ)) :=
  exp_iter F render col_id

/-- Real-number semantics of a substituted expression followed by the `float`
cast: `none` models the `TypeError`/`ValueError` the cast raises when the
value is not a real number (square root or fractional power of a negative,
reciprocal of zero via `zoo`, logarithm of a non-positive number). -/
noncomputable def evalR : Expr → List ℝ → Option ℝ
  | .intC z, _ => some (z : ℝ)
  | .var n, args => args[n]?
  | .add a b, args => do
    let x ← evalR a args
    let y ← evalR b args
    some (x + y)
  | .mul a b, args => do
    let x ← evalR a args
    let y ← evalR b args
    some (x * y)
  | .pow b num den, args => do
    let x ← evalR b args
    if den = 1 then
      if x = 0 ∧ num < 0 then none else some (x ^ num)
    else
      if x < 0 then none
      else if x = 0 ∧ num < 0 then none
      else some (Real.rpow x ((num : ℝ) / (den : ℝ)))
  | .log a, args => do
    let x ← evalR a args
    if x ≤ 0 then none else some (Real.log x)
  | .exp a, args => do
    let x ← evalR a args
    some (Real.exp x)

/-- `postprocess=float` body: substitute the numeric arguments and cast the
result to a real number, raising `TypeError` when the value is not real. -/
noncomputable def floatPost (e : Expr) (args : List ℝ) : Except PyErr ℝ :=
  match evalR e args with
  | some v => .ok v
  | none => .error .typeError

/-- `featurize` with its default `postprocess=float`. -/
noncomputable def featurizeF (F : FunctionFeaturizer) (args : List ℝ) :
    Except PyErr (List (Option ℝ)) :=
  featurize F floatPost args

/-- Mathematical equivalence of two symbolic expressions: equal real-number
semantics under every assignment of the variables. -/
def mathEquiv (a b : Expr) : Prop :=
  ∀ args : List ℝ, evalR a args = evalR b args

/-- The exception that escapes one iteration of `_exp_iter`'s try block, if
any: `none` when the body succeeds or its exception is caught. -/
def uncaughtErr : Except PyErr β → Option PyErr
  | .ok _ => none
  | .error e => if isCaught e then none else some e

/-- Index form of the iteration schedule: triples of depth, selected argument
positions, and position in the depth's table list, for `k` arguments. -/
def idxTriples (d : ℤ) (tbl : ℕ → List Expr) (k : ℕ) : List (ℕ × List ℕ × ℕ) :=
  (depthList d).flatMap fun n =>
    (comb (List.range k) n).flatMap fun c =>
      (List.range (tbl n).length).map fun j => (n, c, j)

/-- The enumeration order the spec fixes on output slots: depth first, then
argument-position combination in lexicographic order, then table position. -/
def tripLt (a b : ℕ × List ℕ × ℕ) : Prop :=
  a.1 < b.1 ∨ (a.1 = b.1 ∧
    (List.Lex (· < ·) a.2.1 b.2.1 ∨ (a.2.1 = b.2.1 ∧ a.2.2 < b.2.2)))

/-- The depth-1 combination table produced from `default_exps`: the twelve
parsed expressions renamed to `x0`, with the bare `x0` removed. -/
def defaultTable1 : List Expr :=
  [.pow (.var 0) (-1) 1, .pow (.var 0) 1 2, .pow (.var 0) (-1) 2,
   .pow (.var 0) 2 1, .pow (.var 0) (-2) 1, .pow (.var 0) 3 1,
   .pow (.var 0) (-3) 1, .log (.var 0), .pow (.log (.var 0)) (-1) 1,
   .exp (.var 0), .exp (.mul (.intC (-1)) (.var 0))]

/-- The featurizer state constructed from the default configuration
(`expressions=None`, `multi_feature_depth=1`, `combo_function=None`). -/
def defaultFF : FunctionFeaturizer :=
  ⟨default_exps, 1, [(1, defaultTable1)]⟩

/-- The featurizer state constructed from `expressions=["x", "1/x"]`,
`multi_feature_depth=2`, default product combo function. -/
def pairFF : FunctionFeaturizer :=
  ⟨["x", "1/x"], 2,
   [(1, [.pow (.var 0) (-1) 1]),
    (2, [.mul (.var 0) (.var 1),
         .mul (.var 0) (.pow (.var 1) (-1) 1),
         .mul (.var 1) (.pow (.var 0) (-1) 1),
         .mul (.pow (.var 0) (-1) 1) (.pow (.var 1) (-1) 1)])]⟩

/-- The featurizer state constructed from `expressions=["x**2", "x**3"]`,
`multi_feature_depth=1` (a small test configuration). -/
def cubeFF : FunctionFeaturizer :=
  ⟨["x**2", "x**3"], 1, [(1, [.pow (.var 0) 2 1, .pow (.var 0) 3 1])]⟩

/-- The value list `featurize(2.0)` produces under the default configuration:
the eleven post-`float` outputs of the depth-1 table at `x0 = 2`. -/
noncomputable def defaultVals2 : List (Option ℝ) :=
  [some (1 / 2), some (Real.sqrt 2), some (Real.sqrt 2)⁻¹, some 4,
   some (1 / 4), some 8, some (1 / 8), some (Real.log 2),
   some (Real.log 2)⁻¹, some (Real.exp 2), some (Real.exp (-2))]

/-! ### Lemmas about the iteration core -/

theorem runIter_char (body : σ → Except PyErr β) (ts : List σ) :
    runIter body ts =
      match ts.findSome? (fun t => uncaughtErr (body t)) with
      | some e => .error e
      | none => .ok (ts.map fun t => (body t).toOption) := by
  induction ts with
  | nil => rfl
  | cons t ts ih =>
    rw [List.findSome?_cons, List.map_cons]
    simp only [runIter]
    cases h : body t with
    | ok v =>
      rw [show uncaughtErr (Except.ok v : Except PyErr β) = none from rfl, ih]
      cases hts : ts.findSome? (fun t => uncaughtErr (body t)) with
      | none => rfl
      | some e => rfl
    | error e =>
      show (if isCaught e then Except.map (fun x => none :: x) (runIter body ts)
        else Except.error e) = _
      cases hc : isCaught e with
      | true =>
        rw [show uncaughtErr (Except.error e : Except PyErr β) = none from by
            simp [uncaughtErr, hc],
          ih]
        cases hts : ts.findSome? (fun t => uncaughtErr (body t)) with
        | none => rfl
        | some e2 => rfl
      | false =>
        rw [show uncaughtErr (Except.error e : Except PyErr β) = some e from by
            simp [uncaughtErr, hc]]
        rfl

theorem runIter_eq_ok {body : σ → Except PyErr β} {ts : List σ}
    {out : List (Option β)} (h : runIter body ts = .ok out) :
    out = ts.map fun t => (body t).toOption := by
  rw [runIter_char] at h
  cases hf : ts.findSome? (fun t => uncaughtErr (body t)) with
  | none => rw [hf] at h; exact (Except.ok.injEq _ _ ▸ h).symm
  | some e => rw [hf] at h; cases h

theorem runIter_ok_of {body : σ → Except PyErr β} {ts : List σ}
    (h : ∀ t ∈ ts, uncaughtErr (body t) = none) :
    runIter body ts = .ok (ts.map fun t => (body t).toOption) := by
  rw [runIter_char, List.findSome?_eq_none_iff.mpr h]

theorem runIter_error {body : σ → Except PyErr β} {ts : List σ} {e : PyErr}
    (h : runIter body ts = .error e) :
    isCaught e = false ∧ ∃ t ∈ ts, body t = .error e := by
  rw [runIter_char] at h
  cases hf : ts.findSome? (fun t => uncaughtErr (body t)) with
  | none => rw [hf] at h; cases h
  | some e2 =>
    rw [hf] at h
    have he : e2 = e := by simpa using h
    subst he
    obtain ⟨t, ht, hu⟩ := List.exists_of_findSome?_eq_some hf
    cases hb : body t with
    | ok v =>
      rw [hb] at hu
      simp [uncaughtErr] at hu
    | error e3 =>
      rw [hb] at hu
      by_cases hc : isCaught e3
      · simp [uncaughtErr, hc] at hu
      · have h3 : some e3 = some e2 := by simpa [uncaughtErr, hc] using hu
        obtain rfl : e3 = e2 := by injection h3
        exact ⟨by simpa using hc, t, ht, hb⟩

/-! ### Lemmas about `comb` (`itertools.combinations`) -/

theorem mem_comb {l : List α} {n : ℕ} {c : List α} :
    c ∈ comb l n ↔ c.Sublist l ∧ c.length = n := by
  induction l generalizing n c with
  | nil =>
    cases n with
    | zero =>
      simp only [comb, List.mem_singleton]
      constructor
      · rintro rfl; exact ⟨List.Sublist.refl _, rfl⟩
      · rintro ⟨hs, _⟩; exact List.sublist_nil.mp hs
    | succ n =>
      simp only [comb, List.not_mem_nil, false_iff, not_and]
      intro hs
      rw [List.sublist_nil.mp hs]
      simp
  | cons x xs ih =>
    cases n with
    | zero =>
      simp only [comb, List.mem_singleton]
      constructor
      · rintro rfl; exact ⟨List.nil_sublist _, rfl⟩
      · rintro ⟨_, hl⟩; exact List.length_eq_zero.mp hl
    | succ n =>
      simp only [comb, List.mem_append, List.mem_map, ih]
      constructor
      · rintro (⟨a, ⟨ha, hlen⟩, rfl⟩ | ⟨hs, hlen⟩)
        · exact ⟨List.Sublist.cons₂ x ha, by simp [hlen]⟩
        · exact ⟨hs.cons x, hlen⟩
      · rintro ⟨hs, hlen⟩
        rcases List.sublist_cons_iff.mp hs with hs2 | ⟨r, rfl, hr⟩
        · exact Or.inr ⟨hs2, hlen⟩
        · exact Or.inl ⟨r, ⟨hr, by simpa using hlen⟩, rfl⟩

theorem comb_map (f : α → β) : ∀ (l : List α) (n : ℕ),
    comb (l.map f) n = (comb l n).map (List.map f)
  | _, 0 => by simp [comb]
  | [], _ + 1 => by simp [comb]
  | x :: xs, n + 1 => by
    simp only [List.map_cons, comb, comb_map f xs, List.map_append,
      List.map_map]
    rfl

theorem comb_pairwise {l : List ℕ} (hl : l.Pairwise (· < ·)) : ∀ (n : ℕ),
    (comb l n).Pairwise (List.Lex (· < ·)) := by
  induction l with
  | nil =>
    intro n
    cases n with
    | zero => simp [comb]
    | succ n => simp [comb]
  | cons x xs ih =>
    intro n
    have hx : ∀ y ∈ xs, x < y := (List.pairwise_cons.mp hl).1
    have hxs : xs.Pairwise (· < ·) := (List.pairwise_cons.mp hl).2
    cases n with
    | zero => simp [comb]
    | succ n =>
      simp only [comb]
      rw [List.pairwise_append]
      refine ⟨?_, ih hxs (n + 1), ?_⟩
      · rw [List.pairwise_map]
        exact (ih hxs n).imp fun h => List.Lex.cons h
      · intro a ha b hb
        obtain ⟨a0, _, rfl⟩ := List.mem_map.mp ha
        obtain ⟨hsb, hlb⟩ := mem_comb.mp hb
        cases b with
        | nil => simp at hlb
        | cons y b2 =>
          have hy : y ∈ xs := hsb.subset (List.mem_cons_self y b2)
          exact List.Lex.rel (hx y hy)

/-! ### Lemmas about indices and list reconstruction -/

theorem range_map_getD (l : List α) (a₀ : α) :
    (List.range l.length).map (fun i => l.getD i a₀) = l := by
  induction l with
  | nil => rfl
  | cons x xs ih =>
    rw [List.length_cons, List.range_succ_eq_map, List.map_cons,
      List.map_map]
    have h2 : ((fun i => (x :: xs).getD i a₀) ∘ Nat.succ) =
        fun i => xs.getD i a₀ := by
      funext i
      simp [List.getD]
    rw [h2, ih]
    simp [List.getD]

theorem mem_depthList {d : ℤ} {n : ℕ} :
    n ∈ depthList d ↔ 1 ≤ n ∧ (n : ℤ) ≤ d := by
  simp only [depthList, List.mem_map, List.mem_range]
  constructor
  · rintro ⟨m, hm, rfl⟩
    omega
  · rintro ⟨h1, hd⟩
    exact ⟨n - 1, by omega, by omega⟩

theorem depthList_pairwise (d : ℤ) : (depthList d).Pairwise (· < ·) := by
  rw [depthList, List.pairwise_map]
  exact (List.pairwise_lt_range _).imp fun h => by omega

theorem flatMap_congr {l : List α} {f g : α → List β}
    (h : ∀ a ∈ l, f a = g a) : l.flatMap f = l.flatMap g := by
  induction l with
  | nil => rfl
  | cons x xs ih =>
    simp only [List.flatMap_cons, h x (List.mem_cons_self x xs)]
    rw [ih fun a ha => h a (List.mem_cons_of_mem x ha)]

theorem flatMap_map_comp (l : List α) (h : α → β) (g : β → List γ) :
    (l.map h).flatMap g = l.flatMap (fun a => g (h a)) := by
  induction l with
  | nil => rfl
  | cons x xs ih => simp only [List.map_cons, List.flatMap_cons, ih]

theorem pairwise_flatMap {l : List α} {f : α → List β} {R : β → β → Prop}
    (hin : ∀ a ∈ l, (f a).Pairwise R)
    (hcross : l.Pairwise (fun a b => ∀ x ∈ f a, ∀ y ∈ f b, R x y)) :
    (l.flatMap f).Pairwise R := by
  rw [show l.flatMap f = (l.map f).flatten from rfl, List.pairwise_flatten]
  exact ⟨by simpa using hin, by rw [List.pairwise_map]; exact hcross⟩

/-! ### The iteration schedule: order and completeness -/

theorem idxTriples_pairwise (d : ℤ) (tbl : ℕ → List Expr) (k : ℕ) :
    (idxTriples d tbl k).Pairwise tripLt := by
  apply pairwise_flatMap
  · intro n hn
    apply pairwise_flatMap
    · intro c hc
      rw [List.pairwise_map]
      refine (List.pairwise_lt_range _).imp ?_
      intro j1 j2 hj
      exact Or.inr ⟨rfl, Or.inr ⟨rfl, hj⟩⟩
    · refine (comb_pairwise (List.pairwise_lt_range k) n).imp ?_
      intro c1 c2 hlex x hx y hy
      obtain ⟨j1, _, rfl⟩ := List.mem_map.mp hx
      obtain ⟨j2, _, rfl⟩ := List.mem_map.mp hy
      exact Or.inr ⟨rfl, Or.inl hlex⟩
  · refine (depthList_pairwise d).imp ?_
    intro n1 n2 hn x hx y hy
    obtain ⟨c1, _, hx2⟩ := List.mem_flatMap.mp hx
    obtain ⟨j1, _, rfl⟩ := List.mem_map.mp hx2
    obtain ⟨c2, _, hy2⟩ := List.mem_flatMap.mp hy
    obtain ⟨j2, _, rfl⟩ := List.mem_map.mp hy2
    exact Or.inl hn

theorem mem_idxTriples {d : ℤ} {tbl : ℕ → List Expr} {k n : ℕ}
    {c : List ℕ} {j : ℕ} :
    (n, c, j) ∈ idxTriples d tbl k ↔
      1 ≤ n ∧ (n : ℤ) ≤ d ∧ c.Sublist (List.range k) ∧ c.length = n ∧
        j < (tbl n).length := by
  simp only [idxTriples, List.mem_flatMap, List.mem_map, List.mem_range,
    mem_depthList, mem_comb, Prod.mk.injEq]
  constructor
  · rintro ⟨n1, ⟨h1, hd⟩, c1, ⟨hs, hl⟩, j1, hj, rfl, rfl, rfl⟩
    exact ⟨h1, hd, hs, hl, hj⟩
  · rintro ⟨h1, hd, hs, hl, hj⟩
    exact ⟨n, ⟨h1, hd⟩, c, ⟨hs, hl⟩, j, hj, rfl, rfl, rfl⟩

theorem comb_eq_idx (args : List α) (a₀ : α) (n : ℕ) :
    comb args n = (comb (List.range args.length) n).map
      (List.map (fun i => args.getD i a₀)) := by
  conv_lhs => rw [← range_map_getD args a₀]
  rw [comb_map]

theorem subsPairs_eq (F : FunctionFeaturizer) (args : List α) (a₀ : α)
    (e₀ : Expr) :
    subsPairs F args =
      (idxTriples F.multi_feature_depth F.dict args.length).map
        (fun t => ((F.dict t.1).getD t.2.2 e₀,
          t.2.1.map (fun i => args.getD i a₀))) := by
  unfold subsPairs idxTriples
  rw [List.map_flatMap]
  apply flatMap_congr
  intro n hn
  rw [List.map_flatMap, comb_eq_idx args a₀ n, flatMap_map_comp]
  apply flatMap_congr
  intro c hc
  rw [List.map_map]
  conv_lhs => rw [← range_map_getD (F.dict n) e₀]
  rw [List.map_map]
  simp [Function.comp]

theorem subsPairs_map (F : FunctionFeaturizer) (f : α → β) (args : List α) :
    subsPairs F (args.map f) =
      (subsPairs F args).map (fun p => (p.1, p.2.map f)) := by
  unfold subsPairs
  rw [List.map_flatMap]
  apply flatMap_congr
  intro n hn
  rw [comb_map, flatMap_map_comp, List.map_flatMap]
  apply flatMap_congr
  intro c hc
  rw [List.map_map]
  simp [Function.comp]

/-! ### Claim theorems -/

/-- C10: during `featurize` and `feature_labels`, exactly the exceptions of
class `TypeError` or `ValueError` raised by the substitution-plus-postprocess
body are converted to the `None` sentinel; any other exception propagates out
of the call (the first such aborts the whole output sequence): the call
returns the position-wise `toOption` list when no uncaught exception occurs,
and returns the first uncaught exception otherwise. -/
theorem claimC10 (F : FunctionFeaturizer)
    (body : Expr → List α → Except PyErr β) (args : List α) :
    (exp_iter F body args =
      match (subsPairs F args).findSome?
          (fun p => uncaughtErr (body p.1 p.2)) with
      | some e => .error e
      | none => .ok ((subsPairs F args).map fun p => (body p.1 p.2).toOption)) ∧
    (∀ e : PyErr, isCaught e = true ↔
      (e = PyErr.typeError ∨ e = PyErr.valueError)) :=
  ⟨runIter_char _ _, fun e => by cases e <;> simp [isCaught]⟩

/-- C3: in the intended semantics of `generate_expressions_combinations`
(the dedup-and-remove-identity line, modelled from the docstring because the
source line carries a stray token), no returned list ever contains the bare
variable `x0`. -/
theorem claimC3 (expressions : List String) (n : ℕ)
    (combo_function : List Expr → Expr) (l : List Expr)
    (h : generate_expressions_combinations expressions n combo_function =
      .ok l) :
    Expr.var 0 ∉ l := by
  unfold generate_expressions_combinations at h
  cases hp : expressions.mapM parse_expr with
  | none => rw [hp] at h; cases h
  | some exp_array =>
    rw [hp] at h
    have hl : l = (comboCandidates exp_array n combo_function).dedup.filter
        (fun e => e ≠ Expr.var 0) := by
      injection h with h2
      exact h2.symm
    subst hl
    intro hmem
    have h3 := List.of_mem_filter hmem
    simp at h3

/-- Witness for C3 at the configuration `["x", "1/x"]`, depth 1. -/
theorem claimC3_witness :
    Expr.var 0 ∉ ([Expr.pow (Expr.var 0) (-1) 1] : List Expr) :=
  claimC3 ["x", "1/x"] 1 npProd _ (by decide)

/-- C5 counterexample: with base expressions `x*(x+1)` and `x + x**2` at
depth 1, the two candidates are mathematically equivalent yet both are
retained (they are distinct sympy objects), so collapsing is not
"iff mathematically equivalent". -/
theorem claimC5_counterexample :
    generate_expressions_combinations ["x*(x+1)", "x + x**2"] 1 npProd =
      .ok [Expr.mul (Expr.var 0) (Expr.add (Expr.intC 1) (Expr.var 0)),
           Expr.add (Expr.var 0) (Expr.pow (Expr.var 0) 2 1)] ∧
    mathEquiv (Expr.mul (Expr.var 0) (Expr.add (Expr.intC 1) (Expr.var 0)))
      (Expr.add (Expr.var 0) (Expr.pow (Expr.var 0) 2 1)) ∧
    Expr.mul (Expr.var 0) (Expr.add (Expr.intC 1) (Expr.var 0)) ≠
      Expr.add (Expr.var 0) (Expr.pow (Expr.var 0) 2 1) := by
  refine ⟨by decide, ?_, by decide⟩
  intro args
  cases h : args[0]? with
  | none => simp [evalR, h]
  | some v =>
    simp only [evalR, h, Option.bind_some, Option.some_bind]
    norm_num
    rw [show ((2 : ℤ)) = ((2 : ℕ) : ℤ) from rfl, zpow_natCast]
    ring

/-- C5 amended: two candidate combined expressions are collapsed into a
single retained entry iff they are equal as (auto-canonicalised) sympy
objects — structural equality, which is coarser than textual identity but
strictly finer than mathematical equivalence: the result is duplicate-free
and contains exactly the non-`x0` candidates. -/
theorem claimC5_amended (expressions : List String) (n : ℕ)
    (combo_function : List Expr → Expr) (parsed : List Expr) (l : List Expr)
    (hp : expressions.mapM parse_expr = some parsed)
    (h : generate_expressions_combinations expressions n combo_function =
      .ok l) :
    l.Nodup ∧
    ∀ e : Expr, e ∈ l ↔
      (e ∈ comboCandidates parsed n combo_function ∧ e ≠ Expr.var 0) := by
  unfold generate_expressions_combinations at h
  rw [hp] at h
  have hl : l = (comboCandidates parsed n combo_function).dedup.filter
      (fun e => e ≠ Expr.var 0) := by
    injection h with h2
    exact h2.symm
  subst hl
  refine ⟨(List.nodup_dedup _).filter _, ?_⟩
  intro e
  simp [List.mem_filter, List.mem_dedup]

/-- Witness for C5 amended at the configuration `["x", "1/x"]`, depth 1. -/
theorem claimC5_witness :
    ([Expr.pow (Expr.var 0) (-1) 1] : List Expr).Nodup ∧
    ∀ e : Expr, e ∈ ([Expr.pow (Expr.var 0) (-1) 1] : List Expr) ↔
      (e ∈ comboCandidates [Expr.var 0, Expr.pow (Expr.var 0) (-1) 1] 1
          npProd ∧ e ≠ Expr.var 0) :=
  claimC5_amended ["x", "1/x"] 1 npProd _ _ (by decide) (by decide)

/-- C6 counterexample: constructing with `multi_feature_depth = 0` (< 1) does
not fail — it returns a featurizer with an empty combination table. -/
theorem claimC6_counterexample :
    FunctionFeaturizer.init default_exps 0 npProd =
      .ok ⟨default_exps, 0, []⟩ := by
  decide

/-- C6 amended: for every `multi_feature_depth < 1`, construction succeeds
(no validation is performed; `range(1, d+1)` is simply empty), producing a
featurizer with an empty combination table whose `featurize` and
`feature_labels` return the empty sequence for every argument tuple. -/
theorem claimC6_amended {α β : Type} (expressions : List String) (d : ℤ)
    (combo_function : List Expr → Expr) (h : d < 1) :
    FunctionFeaturizer.init expressions d combo_function =
      .ok ⟨expressions, d, []⟩ ∧
    ∀ (args : List α) (body : Expr → List α → Except PyErr β),
      exp_iter ⟨expressions, d, []⟩ body args = .ok [] := by
  have hd : depthList d = [] := by
    unfold depthList
    have h0 : d.toNat = 0 := by omega
    rw [h0]
    rfl
  constructor
  · unfold FunctionFeaturizer.init
    rw [hd]
    rfl
  · intro args body
    unfold exp_iter subsPairs
    rw [show (⟨expressions, d, []⟩ :
        FunctionFeaturizer).multi_feature_depth = d from rfl, hd]
    rfl

/-- Witness for C6 amended at depth 0 with the default expressions. -/
theorem claimC6_witness :
    FunctionFeaturizer.init default_exps 0 npProd =
      .ok ⟨default_exps, 0, []⟩ ∧
    exp_iter (⟨default_exps, 0, []⟩ : FunctionFeaturizer)
      (fun (_ : Expr) (_ : List ℕ) => (Except.ok 0 : Except PyErr ℕ))
      [5] = .ok [] :=
  ⟨(@claimC6_amended ℕ ℕ default_exps 0 npProd (by decide)).1,
   (@claimC6_amended ℕ ℕ default_exps 0 npProd (by decide)).2 [5] _⟩

/-- C7 counterexample: a `ValueError` raised while rendering a label is
caught and replaced by the `None` sentinel, and `feature_labels` succeeds —
the call does not fail. -/
theorem claimC7_counterexample :
    feature_labels cubeFF
      (fun e _ => if e = Expr.pow (Expr.var 0) 3 1
        then (Except.error PyErr.valueError : Except PyErr String)
        else Except.ok "lbl")
      ["colA"] = Except.ok [some "lbl", none] := by
  decide

/-- C7 amended: label rendering runs under the same
`except (TypeError, ValueError)` clause as value evaluation: a rendering
failure of those classes becomes the `None` sentinel at its position and the
call succeeds; only exceptions outside those classes propagate and abort the
call. -/
theorem claimC7_amended {γ δ : Type} (F : FunctionFeaturizer)
    (col_id : List γ) (render : Expr → List γ → Except PyErr δ)
    (h : ∀ p ∈ subsPairs F col_id, uncaughtErr (render p.1 p.2) = none) :
    feature_labels F render col_id =
      .ok ((subsPairs F col_id).map fun p => (render p.1 p.2).toOption) ∧
    ∀ e : PyErr, feature_labels F render col_id = .error e →
      isCaught e = false ∧ ∃ p ∈ subsPairs F col_id,
        render p.1 p.2 = .error e := by
  constructor
  · exact runIter_ok_of h
  · intro e he
    exact runIter_error he

/-- Witness for C7 amended: the configuration of the counterexample,
applied through the amended theorem. -/
theorem claimC7_witness :
    feature_labels cubeFF
      (fun e _ => if e = Expr.pow (Expr.var 0) 3 1
        then (Except.error PyErr.typeError : Except PyErr String)
        else Except.ok "s")
      ["c"] = Except.ok [some "s", none] := by
  have h := (claimC7_amended cubeFF ["c"]
    (fun e _ => if e = Expr.pow (Expr.var 0) 3 1
      then (Except.error PyErr.typeError : Except PyErr String)
      else Except.ok "s")
    (by decide)).1
  exact h.trans (by decide)

/-- C2: when the postprocess body raises a caught (type/numeric-domain) error
at exactly one iteration position and succeeds elsewhere, `featurize` returns
a sequence of the full length (the same length as any error-free run, namely
the number of iteration slots), with the `None` sentinel at exactly that
position and the normal value at every other position. -/
theorem claimC2 {α β : Type} (F : FunctionFeaturizer)
    (body : Expr → List α → Except PyErr β) (args : List α) (i : ℕ)
    (hi : i < (subsPairs F args).length)
    (herr : ∃ e, isCaught e = true ∧
      body ((subsPairs F args).get ⟨i, hi⟩).1
        ((subsPairs F args).get ⟨i, hi⟩).2 = .error e)
    (hok : ∀ j (hj : j < (subsPairs F args).length), j ≠ i →
      ∃ v, body ((subsPairs F args).get ⟨j, hj⟩).1
        ((subsPairs F args).get ⟨j, hj⟩).2 = .ok v) :
    featurize F body args =
      .ok ((subsPairs F args).map fun p => (body p.1 p.2).toOption) ∧
    ((subsPairs F args).map fun p => (body p.1 p.2).toOption).length =
      (subsPairs F args).length ∧
    ((subsPairs F args).map fun p => (body p.1 p.2).toOption)[i]? =
      some none ∧
    ∀ j (hj : j < (subsPairs F args).length), j ≠ i →
      ∃ v, ((subsPairs F args).map fun p => (body p.1 p.2).toOption)[j]? =
        some (some v) := by
  obtain ⟨e, hce, hbe⟩ := herr
  have hall : ∀ p ∈ subsPairs F args, uncaughtErr (body p.1 p.2) = none := by
    intro p hp
    obtain ⟨n, hn⟩ := List.mem_iff_get.mp hp
    subst hn
    by_cases hji : (n : ℕ) = i
    · have hn2 : n = ⟨i, hi⟩ := Fin.ext hji
      rw [hn2, hbe]
      simp [uncaughtErr, hce]
    · obtain ⟨v, hv⟩ := hok n n.isLt hji
      have hn3 : (⟨(n : ℕ), n.isLt⟩ : Fin (subsPairs F args).length) = n :=
        Fin.eta n n.isLt
      rw [hn3] at hv
      rw [hv]
      rfl
  have hmain : featurize F body args =
      .ok ((subsPairs F args).map fun p => (body p.1 p.2).toOption) :=
    runIter_ok_of hall
  refine ⟨hmain, List.length_map _ _, ?_, ?_⟩
  · rw [List.getElem?_map, List.getElem?_eq_getElem hi]
    simp only [List.get_eq_getElem] at hbe
    simp [hbe, Except.toOption]
  · intro j hj hne
    obtain ⟨v, hv⟩ := hok j hj hne
    refine ⟨v, ?_⟩
    rw [List.getElem?_map, List.getElem?_eq_getElem hj]
    simp only [List.get_eq_getElem] at hv
    simp [hv, Except.toOption]

/-- Witness for C2: two depth-1 expressions, the body fails with
`ValueError` on the second only; the output keeps its length, has the
sentinel exactly there, and the normal value elsewhere. -/
theorem claimC2_witness :
    featurize cubeFF
      (fun e _ => if e = Expr.pow (Expr.var 0) 3 1
        then (Except.error PyErr.valueError : Except PyErr ℕ)
        else Except.ok 42) [(7 : ℕ)] = .ok [some 42, none] := by
  have h := claimC2 cubeFF
    (fun e _ => if e = Expr.pow (Expr.var 0) 3 1
      then (Except.error PyErr.valueError : Except PyErr ℕ)
      else Except.ok 42) [(7 : ℕ)] 1 (by decide)
    ⟨PyErr.valueError, by decide, by decide⟩
    (fun j hj hne => by
      have hlen : (subsPairs cubeFF [(7 : ℕ)]).length = 2 := by decide
      have hj0 : j = 0 := by omega
      subst hj0
      exact ⟨42, rfl⟩)
  exact h.1.trans (by decide)

/-- C1: for every featurizer state and every equal-length argument and
column-name tuples, a successful `featurize` and a successful
`feature_labels` are position-for-position maps over one common iteration
schedule (`subsPairs` of the zipped tuples): slot `i` of both outputs comes
from the same expression and the same selected argument positions, and the
two outputs have identical length. -/
theorem claimC1 {α γ β δ : Type} (F : FunctionFeaturizer) (args : List α)
    (col_id : List γ) (h : args.length = col_id.length)
    (bodyV : Expr → List α → Except PyErr β)
    (bodyL : Expr → List γ → Except PyErr δ)
    (outV : List (Option β)) (outL : List (Option δ))
    (hV : featurize F bodyV args = .ok outV)
    (hL : feature_labels F bodyL col_id = .ok outL) :
    outV = (subsPairs F (args.zip col_id)).map
      (fun p => (bodyV p.1 (p.2.map Prod.fst)).toOption) ∧
    outL = (subsPairs F (args.zip col_id)).map
      (fun p => (bodyL p.1 (p.2.map Prod.snd)).toOption) ∧
    outV.length = outL.length := by
  have hfst : (args.zip col_id).map Prod.fst = args :=
    List.map_fst_zip _ _ (le_of_eq h)
  have hsnd : (args.zip col_id).map Prod.snd = col_id :=
    List.map_snd_zip _ _ (le_of_eq h.symm)
  have e1 : subsPairs F args = (subsPairs F (args.zip col_id)).map
      (fun p => (p.1, p.2.map Prod.fst)) := by
    conv_lhs => rw [← hfst]
    rw [subsPairs_map]
  have e2 : subsPairs F col_id = (subsPairs F (args.zip col_id)).map
      (fun p => (p.1, p.2.map Prod.snd)) := by
    conv_lhs => rw [← hsnd]
    rw [subsPairs_map]
  have hV2 := runIter_eq_ok hV
  have hL2 := runIter_eq_ok hL
  rw [e1, List.map_map] at hV2
  rw [e2, List.map_map] at hL2
  refine ⟨hV2, hL2, ?_⟩
  rw [hV2, hL2]
  simp

/-- Witness for C1 at a concrete configuration: two arguments and two
column names, bodies that always succeed. -/
theorem claimC1_witness :
    ([some 0, some 0, some 0, some 0] : List (Option ℕ)).length =
      ([some "s", some "s", some "s", some "s"] : List (Option String)).length :=
  (claimC1 cubeFF ([1, 2] : List ℕ) (["a", "b"] : List String) rfl
    (fun _ _ => (Except.ok 0 : Except PyErr ℕ))
    (fun _ _ => (Except.ok "s" : Except PyErr String))
    [some 0, some 0, some 0, some 0]
    [some "s", some "s", some "s", some "s"]
    (by decide) (by decide)).2.2

/-- C8: the iteration schedule of `featurize`/`feature_labels` is exactly the
nested enumeration: the pair list walked by `_exp_iter` is the image of the
index triples `(depth, positions, table index)`; those triples are strictly
sorted by depth, then by argument-position combination in lexicographic
(increasing-index, no-repeat) order, then by table position; and the triples
are complete — every admissible triple occurs.  The last conjunct ties the
schedule to `featurize` itself. -/
theorem claimC8 {α β : Type} (F : FunctionFeaturizer) (args : List α)
    (a₀ : α) (e₀ : Expr) :
    (subsPairs F args =
      (idxTriples F.multi_feature_depth F.dict args.length).map
        (fun t => ((F.dict t.1).getD t.2.2 e₀,
          t.2.1.map (fun i => args.getD i a₀)))) ∧
    (idxTriples F.multi_feature_depth F.dict args.length).Pairwise tripLt ∧
    (∀ n c j,
      (n, c, j) ∈ idxTriples F.multi_feature_depth F.dict args.length ↔
      (1 ≤ n ∧ (n : ℤ) ≤ F.multi_feature_depth ∧
        c.Sublist (List.range args.length) ∧ c.length = n ∧
        j < (F.dict n).length)) ∧
    (∀ body : Expr → List α → Except PyErr β,
      featurize F body args =
        runIter (fun p => body p.1 p.2) (subsPairs F args)) :=
  ⟨subsPairs_eq F args a₀ e₀, idxTriples_pairwise _ _ _,
   fun _ _ _ => mem_idxTriples, fun _ => rfl⟩

/-! ### Real-valued evaluation of the default configuration -/

theorem uncaughtErr_floatPost (e : Expr) (args : List ℝ) :
    uncaughtErr (floatPost e args) = none := by
  cases h : evalR e args <;> simp [floatPost, h, uncaughtErr, isCaught]

theorem floatPost_toOption (e : Expr) (args : List ℝ) :
    (floatPost e args).toOption = evalR e args := by
  cases h : evalR e args <;> simp [floatPost, h, Except.toOption]

theorem featurizeF_eq (F : FunctionFeaturizer) (args : List ℝ) :
    featurizeF F args =
      .ok ((subsPairs F args).map fun p => evalR p.1 p.2) := by
  have h := @runIter_ok_of _ _ (fun p => floatPost p.1 p.2)
    (subsPairs F args) (fun p _ => uncaughtErr_floatPost p.1 p.2)
  refine h.trans ?_
  simp only [floatPost_toOption]

theorem ev_inv2 : evalR (.pow (.var 0) (-1) 1) [(2 : ℝ)] = some (1 / 2) := by
  norm_num [evalR]

theorem ev_sqrt2 : evalR (.pow (.var 0) 1 2) [(2 : ℝ)] =
    some (Real.sqrt 2) := by
  norm_num [evalR]
  rw [← Real.sqrt_eq_rpow]

theorem ev_invsqrt2 : evalR (.pow (.var 0) (-1) 2) [(2 : ℝ)] =
    some (Real.sqrt 2)⁻¹ := by
  norm_num [evalR]
  rw [Real.rpow_neg (by norm_num : (0:ℝ) ≤ 2), ← Real.sqrt_eq_rpow]

theorem ev_sq2 : evalR (.pow (.var 0) 2 1) [(2 : ℝ)] = some 4 := by
  norm_num [evalR]

theorem ev_invsq2 : evalR (.pow (.var 0) (-2) 1) [(2 : ℝ)] =
    some (1 / 4) := by
  norm_num [evalR]

theorem ev_cube2 : evalR (.pow (.var 0) 3 1) [(2 : ℝ)] = some 8 := by
  norm_num [evalR]

theorem ev_invcube2 : evalR (.pow (.var 0) (-3) 1) [(2 : ℝ)] =
    some (1 / 8) := by
  norm_num [evalR]

theorem ev_log2 : evalR (.log (.var 0)) [(2 : ℝ)] = some (Real.log 2) := by
  norm_num [evalR]

theorem ev_invlog2 : evalR (.pow (.log (.var 0)) (-1) 1) [(2 : ℝ)] =
    some (Real.log 2)⁻¹ := by
  have hne : Real.log 2 ≠ 0 := (Real.log_pos (by norm_num)).ne.symm
  norm_num [evalR, hne]

theorem ev_exp2 : evalR (.exp (.var 0)) [(2 : ℝ)] = some (Real.exp 2) := by
  norm_num [evalR]

theorem ev_expneg2 : evalR (.exp (.mul (.intC (-1)) (.var 0))) [(2 : ℝ)] =
    some (Real.exp (-2)) := by
  norm_num [evalR]

theorem ev_inv3 : evalR (.pow (.var 0) (-1) 1) [(3 : ℝ)] = some (1 / 3) := by
  norm_num [evalR]

theorem ev_mul23 : evalR (.mul (.var 0) (.var 1)) [(2 : ℝ), 3] = some 6 := by
  norm_num [evalR]

theorem ev_mul2inv3 : evalR (.mul (.var 0) (.pow (.var 1) (-1) 1))
    [(2 : ℝ), 3] = some (2 / 3) := by
  norm_num [evalR]

theorem ev_mul3inv2 : evalR (.mul (.var 1) (.pow (.var 0) (-1) 1))
    [(2 : ℝ), 3] = some (3 / 2) := by
  norm_num [evalR]

theorem ev_invmul23 : evalR
    (.mul (.pow (.var 0) (-1) 1) (.pow (.var 1) (-1) 1))
    [(2 : ℝ), 3] = some (1 / 6) := by
  norm_num [evalR]

theorem featurize_default_two :
    featurizeF defaultFF [(2 : ℝ)] = .ok defaultVals2 := by
  rw [featurizeF_eq, show subsPairs defaultFF [(2 : ℝ)] =
    defaultTable1.map (fun e => (e, [(2 : ℝ)])) from rfl]
  simp only [defaultTable1, List.map_cons, List.map_nil]
  rw [ev_inv2, ev_sqrt2, ev_invsqrt2, ev_sq2, ev_invsq2, ev_cube2,
    ev_invcube2, ev_log2, ev_invlog2, ev_exp2, ev_expneg2]
  rfl

theorem two_not_mem_defaultVals2 : some (2 : ℝ) ∉ defaultVals2 := by
  have hs2 : Real.sqrt 2 ≠ 2 := by
    intro h
    have hsq := Real.sq_sqrt (by norm_num : (0:ℝ) ≤ 2)
    rw [h] at hsq
    norm_num at hsq
  have hgt1 : 1 < Real.sqrt 2 := by
    rw [show (1:ℝ) = Real.sqrt 1 from (Real.sqrt_one).symm]
    exact Real.sqrt_lt_sqrt (by norm_num) (by norm_num)
  have hsinv : (Real.sqrt 2)⁻¹ ≠ 2 :=
    (lt_trans (inv_lt_one hgt1) (by norm_num)).ne
  have hlog : Real.log 2 ≠ 2 :=
    (lt_trans Real.log_two_lt_d9 (by norm_num)).ne
  have hloggt : (1 : ℝ) / 2 < Real.log 2 :=
    lt_trans (by norm_num) Real.log_two_gt_d9
  have hloginv : (Real.log 2)⁻¹ ≠ 2 := by
    have h3 := inv_lt_inv_of_lt (by norm_num : (0:ℝ) < 1 / 2) hloggt
    norm_num at h3
    exact h3.ne
  have hexp2 : (2 : ℝ) < Real.exp 2 :=
    lt_trans (lt_trans (by norm_num) Real.exp_one_gt_d9)
      (Real.exp_lt_exp.mpr one_lt_two)
  have hexpneg : Real.exp (-2) ≠ 2 := by
    have h4 : Real.exp (-2) < 1 := by
      rw [Real.exp_neg]
      exact inv_lt_one (lt_trans one_lt_two hexp2)
    exact (lt_trans h4 (by norm_num)).ne
  intro hmem
  simp only [defaultVals2, List.mem_cons, List.not_mem_nil, or_false,
    Option.some.injEq] at hmem
  rcases hmem with h|h|h|h|h|h|h|h|h|h|h
  · norm_num at h
  · exact hs2 h.symm
  · exact hsinv h.symm
  · norm_num at h
  · norm_num at h
  · norm_num at h
  · norm_num at h
  · exact hlog h.symm
  · exact hloginv h.symm
  · exact hexp2.ne h.symm.symm
  · exact hexpneg h.symm

/-- C4 counterexample: under the default configuration
(`multi_feature_depth=1`, default 12 expressions, `postprocess=float`),
`featurize(2.0)` does NOT contain the identity output `2.0`: the bare `x0`
expression is removed from the depth-1 table at construction, so no output
equals `2.0`. -/
theorem claimC4_counterexample :
    FunctionFeaturizer.init default_exps 1 npProd = .ok defaultFF ∧
    featurizeF defaultFF [(2 : ℝ)] = .ok defaultVals2 ∧
    some (2 : ℝ) ∉ defaultVals2 :=
  ⟨by decide, featurize_default_two, two_not_mem_defaultVals2⟩

/-- C4 amended: with the default 12-expression list and
`multi_feature_depth=1`, `featurize(2.0)` with `postprocess=float` includes
the outputs `0.5` (reciprocal), `sqrt 2` (square root) and `4.0` (square),
but not `2.0`: the identity expression is removed from the depth-1 table, so
the identity output is absent. -/
theorem claimC4_amended :
    FunctionFeaturizer.init default_exps 1 npProd = .ok defaultFF ∧
    featurizeF defaultFF [(2 : ℝ)] = .ok defaultVals2 ∧
    some (1 / 2 : ℝ) ∈ defaultVals2 ∧
    some (Real.sqrt 2) ∈ defaultVals2 ∧
    some (4 : ℝ) ∈ defaultVals2 ∧
    some (2 : ℝ) ∉ defaultVals2 :=
  ⟨by decide, featurize_default_two, by simp [defaultVals2],
   by simp [defaultVals2], by simp [defaultVals2], two_not_mem_defaultVals2⟩

/-- C9: with `expressions=["x", "1/x"]`, `multi_feature_depth=2` and the
default product combo function, construction yields exactly the four
pairwise-inequivalent depth-2 expressions `x0*x1`, `x0*(1/x1)`, `(1/x0)*x1`,
`(1/x0)*(1/x1)` (the permutation duplicates are merged, `x0*x1` is retained,
only bare `x0` is removed at depth 1), and `featurize(2.0, 3.0)` yields the
two depth-1 reciprocal outputs followed by the four depth-2 outputs
`6`, `2/3`, `3/2`, `1/6` evaluated at `(2.0, 3.0)`. -/
theorem claimC9 :
    FunctionFeaturizer.init ["x", "1/x"] 2 npProd = .ok pairFF ∧
    pairFF.dict 2 =
      [.mul (.var 0) (.var 1),
       .mul (.var 0) (.pow (.var 1) (-1) 1),
       .mul (.var 1) (.pow (.var 0) (-1) 1),
       .mul (.pow (.var 0) (-1) 1) (.pow (.var 1) (-1) 1)] ∧
    featurizeF pairFF [(2 : ℝ), 3] = .ok
      [some (1 / 2), some (1 / 3), some 6, some (2 / 3), some (3 / 2),
       some (1 / 6)] := by
  refine ⟨by decide, by decide, ?_⟩
  rw [featurizeF_eq, show subsPairs pairFF [(2 : ℝ), 3] =
    [(Expr.pow (.var 0) (-1) 1, [(2 : ℝ)]),
     (Expr.pow (.var 0) (-1) 1, [(3 : ℝ)]),
     (Expr.mul (.var 0) (.var 1), [(2 : ℝ), 3]),
     (Expr.mul (.var 0) (.pow (.var 1) (-1) 1), [(2 : ℝ), 3]),
     (Expr.mul (.var 1) (.pow (.var 0) (-1) 1), [(2 : ℝ), 3]),
     (Expr.mul (.pow (.var 0) (-1) 1) (.pow (.var 1) (-1) 1), [(2 : ℝ), 3])]
    from rfl]
  simp only [List.map_cons, List.map_nil]
  rw [ev_inv2, ev_inv3, ev_mul23, ev_mul2inv3, ev_mul3inv2, ev_invmul23]
